import Mathlib

/-!
Verification of the semval validation framework and its reservation example.

The example domain types (`Email`, `Phone`, `ContactData`, `Customer`,
`Quantity`, `Reservation`) are shallow embeddings of
`src/examples/reservation.rs`.  The core accumulator (`ValidationContext`,
`invalidate_if`, `validate_and_map`, the finalizing conversion `into`) is
not part of the sources available here, so it is modelled from the spec.
-/

namespace Semval

/-- Modelled from the spec: the validation outcome — either "valid" (no
invalidities) or a non-empty ordered sequence of invalidity values.
(`ValidationResult<I>` in the missing core.) -/
inductive ValidationResult (I : Type) where
  | valid : ValidationResult I
  | invalid (errs : List I) : ValidationResult I
deriving DecidableEq, Repr

/-- The ordered sequence of invalidities carried by an outcome
(empty for the "valid" outcome). -/
def ValidationResult.invalidities {I : Type} : ValidationResult I → List I
  | .valid => []
  | .invalid errs => errs

/-- Modelled from the spec: the validation context (accumulator) — a
mutable, append-only accumulator holding an ordered, possibly-empty
sequence of invalidity values of a single invalidity type.
(`ValidationContext<I>` in the missing core.) -/
structure ValidationContext (I : Type) where
  invalidities : List I
deriving DecidableEq, Repr

/-- Modelled from the spec: construct empty — starts in the "valid" state
(empty sequence). -/
def ValidationContext.valid {I : Type} : ValidationContext I := ⟨[]⟩

/-- Modelled from the spec: conditionally record an invalidity — given a
boolean predicate and an invalidity value, appends the value to the
sequence iff the predicate is true; otherwise a no-op. -/
def ValidationContext.invalidate_if {I : Type} (c : ValidationContext I)
    (b : Bool) (v : I) : ValidationContext I :=
  if b then ⟨c.invalidities ++ [v]⟩ else c

/-- Modelled from the spec: merge a nested outcome with mapping — applies
the mapping to every invalidity in the nested outcome, in order, and
appends the mapped results to the accumulator's sequence. -/
def ValidationContext.validate_and_map {I J : Type} (c : ValidationContext I)
    (r : ValidationResult J) (f : J → I) : ValidationContext I :=
  ⟨c.invalidities ++ r.invalidities.map f⟩

/-- Modelled from the spec: finalize into outcome — accumulator with empty
sequence becomes the success variant with no payload; accumulator with
non-empty sequence becomes the failure variant carrying the ordered
sequence.  Total: it cannot fail. -/
def ValidationContext.into {I : Type} (c : ValidationContext I) :
    ValidationResult I :=
  match c.invalidities with
  | [] => .valid
  | errs => .invalid errs

/-- `struct UnexpectedValue<T> { expected: T, actual: T }` -/
structure UnexpectedValue (T : Type) where
  expected : T
  actual : T
deriving DecidableEq, Repr

/-- Rust `char::is_whitespace`: the Unicode `White_Space` property,
transcribed by code point. -/
def rustIsWhitespace (c : Char) : Bool :=
  [0x09, 0x0A, 0x0B, 0x0C, 0x0D, 0x20, 0x85, 0xA0, 0x1680,
   0x2000, 0x2001, 0x2002, 0x2003, 0x2004, 0x2005, 0x2006, 0x2007,
   0x2008, 0x2009, 0x200A, 0x2028, 0x2029, 0x202F, 0x205F, 0x3000].contains
    c.toNat

/-- `struct Email(String)` -/
structure Email where
  s : String
deriving DecidableEq, Repr

/-- `Email::min_len() = 5` -/
def Email.min_len : Nat := 5

/-- `enum EmailInvalidity { MinLen(UnexpectedValue<usize>), Format }` -/
inductive EmailInvalidity where
  | MinLen (u : UnexpectedValue Nat) : EmailInvalidity
  | Format : EmailInvalidity
deriving DecidableEq, Repr

/-- `self.0.chars().filter(|c| *c == '@').count()` -/
def Email.atCount (e : Email) : Nat :=
  (e.s.toList.filter (fun c => c == '@')).length

/-- `Email::validate` from src/examples/reservation.rs (Rust `String::len`
is the UTF-8 byte length). -/
def Email.validate (e : Email) : ValidationResult EmailInvalidity :=
  let context : ValidationContext EmailInvalidity := .valid
  let context := context.invalidate_if
    (decide (e.s.utf8ByteSize < Email.min_len))
    (.MinLen ⟨Email.min_len, e.s.utf8ByteSize⟩)
  let context := context.invalidate_if
    (decide (e.atCount ≠ 1))
    .Format
  context.into

/-- `struct Phone(String)` -/
structure Phone where
  s : String
deriving DecidableEq, Repr

/-- `Phone::min_len() = 6` -/
def Phone.min_len : Nat := 6

/-- `enum PhoneInvalidity { MinLen(UnexpectedValue<usize>) }` -/
inductive PhoneInvalidity where
  | MinLen (u : UnexpectedValue Nat) : PhoneInvalidity
deriving DecidableEq, Repr

/-- `self.0.chars().filter(|c| !c.is_whitespace()).count()` -/
def Phone.nonWsLen (p : Phone) : Nat :=
  (p.s.toList.filter (fun c => !rustIsWhitespace c)).length

/-- `Phone::validate` from src/examples/reservation.rs. -/
def Phone.validate (p : Phone) : ValidationResult PhoneInvalidity :=
  let context : ValidationContext PhoneInvalidity := .valid
  let len := p.nonWsLen
  let context := context.invalidate_if
    (decide (len < Phone.min_len))
    (.MinLen ⟨Phone.min_len, len⟩)
  context.into

/-- `struct ContactData { email: Option<Email>, phone: Option<Phone> }` -/
structure ContactData where
  email : Option Email
  phone : Option Phone
deriving DecidableEq, Repr

/-- `enum ContactDataInvalidity { Phone(..), Email(..), Incomplete }` -/
inductive ContactDataInvalidity where
  | Phone (i : PhoneInvalidity) : ContactDataInvalidity
  | Email (i : EmailInvalidity) : ContactDataInvalidity
  | Incomplete : ContactDataInvalidity
deriving DecidableEq, Repr

/-- `ContactData::validate` from src/examples/reservation.rs. -/
def ContactData.validate (cd : ContactData) :
    ValidationResult ContactDataInvalidity :=
  let context : ValidationContext ContactDataInvalidity := .valid
  let context := match cd.email with
    | some email => context.validate_and_map email.validate .Email
    | none => context
  let context := match cd.phone with
    | some phone => context.validate_and_map phone.validate .Phone
    | none => context
  let context := context.invalidate_if
    (cd.email.isNone && cd.phone.isNone)
    .Incomplete
  context.into

/-- `struct Customer { name: String, contact_data: ContactData }` -/
structure Customer where
  name : String
  contact_data : ContactData
deriving DecidableEq, Repr

/-- `enum CustomerInvalidity { NameEmpty, ContactData(..) }` -/
inductive CustomerInvalidity where
  | NameEmpty : CustomerInvalidity
  | ContactData (i : ContactDataInvalidity) : CustomerInvalidity
deriving DecidableEq, Repr

/-- `Customer::validate` from src/examples/reservation.rs. -/
def Customer.validate (cu : Customer) : ValidationResult CustomerInvalidity :=
  let context : ValidationContext CustomerInvalidity := .valid
  let context := context.invalidate_if cu.name.isEmpty .NameEmpty
  let context := context.validate_and_map cu.contact_data.validate .ContactData
  context.into

/-- `struct Quantity(usize)` -/
structure Quantity where
  n : Nat
deriving DecidableEq, Repr

/-- `Quantity::min() = Quantity(1)` -/
def Quantity.min : Quantity := ⟨1⟩

/-- `enum QuantityInvalidity { Min(UnexpectedValue<Quantity>) }` -/
inductive QuantityInvalidity where
  | Min (u : UnexpectedValue Quantity) : QuantityInvalidity
deriving DecidableEq, Repr

/-- `Quantity::validate` from src/examples/reservation.rs (`*self <
Self::min()` uses the derived order on the wrapped `usize`). -/
def Quantity.validate (q : Quantity) : ValidationResult QuantityInvalidity :=
  let context : ValidationContext QuantityInvalidity := .valid
  let context := context.invalidate_if
    (decide (q.n < Quantity.min.n))
    (.Min ⟨Quantity.min, q⟩)
  context.into

/-- `struct Reservation { customer: Customer, quantity: Quantity }` -/
structure Reservation where
  customer : Customer
  quantity : Quantity
deriving DecidableEq, Repr

/-- `enum ReservationInvalidity { Customer(..), Quantity(..) }` -/
inductive ReservationInvalidity where
  | Customer (i : CustomerInvalidity) : ReservationInvalidity
  | Quantity (i : QuantityInvalidity) : ReservationInvalidity
deriving DecidableEq, Repr

/-- `Reservation::validate` from src/examples/reservation.rs. -/
def Reservation.validate (r : Reservation) :
    ValidationResult ReservationInvalidity :=
  let context : ValidationContext ReservationInvalidity := .valid
  let context := context.validate_and_map r.customer.validate .Customer
  let context := context.validate_and_map r.quantity.validate .Quantity
  context.into

/-- The value produced by `Reservation::default()` (`#[derive(Default)]`:
empty strings, `None` options, zero quantity). -/
def Reservation.defaultValue : Reservation :=
  ⟨⟨"", ⟨none, none⟩⟩, ⟨0⟩⟩

/-! ### Number of independently-true failing conditions, per type -/

/-- The number of true `invalidate_if` conditions in `Email::validate`. -/
def Email.numFailing (e : Email) : Nat :=
  (if e.s.utf8ByteSize < Email.min_len then 1 else 0) +
  (if e.atCount ≠ 1 then 1 else 0)

/-- The number of true `invalidate_if` conditions in `Phone::validate`. -/
def Phone.numFailing (p : Phone) : Nat :=
  if p.nonWsLen < Phone.min_len then 1 else 0

/-- The number of true `invalidate_if` conditions in `Quantity::validate`. -/
def Quantity.numFailing (q : Quantity) : Nat :=
  if q.n < Quantity.min.n then 1 else 0

/-- The number of true failing conditions across a `ContactData` value and
its nested fields. -/
def ContactData.numFailing (cd : ContactData) : Nat :=
  (match cd.email with | some e => e.numFailing | none => 0) +
  (match cd.phone with | some p => p.numFailing | none => 0) +
  (if cd.email.isNone && cd.phone.isNone then 1 else 0)

/-- The number of true failing conditions across a `Customer` value and
its nested fields. -/
def Customer.numFailing (cu : Customer) : Nat :=
  (if cu.name.isEmpty then 1 else 0) + cu.contact_data.numFailing

/-- The number of true failing conditions across a `Reservation` value and
its nested fields. -/
def Reservation.numFailing (r : Reservation) : Nat :=
  r.customer.numFailing + r.quantity.numFailing

/-! ### Generic accumulator lemmas -/

theorem valid_invalidities {I : Type} :
    (ValidationContext.valid : ValidationContext I).invalidities = [] := rfl

theorem invalidate_if_invalidities {I : Type} (c : ValidationContext I)
    (b : Bool) (v : I) :
    (c.invalidate_if b v).invalidities =
      c.invalidities ++ (if b then [v] else []) := by
  cases b <;> simp [ValidationContext.invalidate_if]

theorem validate_and_map_invalidities {I J : Type} (c : ValidationContext I)
    (r : ValidationResult J) (f : J → I) :
    (c.validate_and_map r f).invalidities =
      c.invalidities ++ r.invalidities.map f := rfl

theorem into_invalidities {I : Type} (c : ValidationContext I) :
    c.into.invalidities = c.invalidities := by
  cases c with
  | mk l => cases l <;> rfl

theorem into_eq_valid_iff {I : Type} (c : ValidationContext I) :
    c.into = .valid ↔ c.invalidities = [] := by
  cases c with
  | mk l =>
    cases l with
    | nil => simp [ValidationContext.into]
    | cons a t => simp [ValidationContext.into]

theorem into_eq_invalid_of_ne_nil {I : Type} (c : ValidationContext I)
    (h : c.invalidities ≠ []) : c.into = .invalid c.invalidities := by
  cases c with
  | mk l =>
    cases l with
    | nil => exact absurd rfl h
    | cons a t => rfl

/-! ### Closed forms of the example validations -/

theorem email_invalidities_eq (e : Email) :
    (Email.validate e).invalidities =
      (if e.s.utf8ByteSize < Email.min_len
        then [EmailInvalidity.MinLen ⟨Email.min_len, e.s.utf8ByteSize⟩]
        else []) ++
      (if e.atCount ≠ 1 then [EmailInvalidity.Format] else []) := by
  simp only [Email.validate, into_invalidities, invalidate_if_invalidities,
    valid_invalidities, List.nil_append, decide_eq_true_eq, List.append_assoc]

theorem phone_invalidities_eq (p : Phone) :
    (Phone.validate p).invalidities =
      (if p.nonWsLen < Phone.min_len
        then [PhoneInvalidity.MinLen ⟨Phone.min_len, p.nonWsLen⟩]
        else []) := by
  simp only [Phone.validate, into_invalidities, invalidate_if_invalidities,
    valid_invalidities, List.nil_append, decide_eq_true_eq]

theorem quantity_invalidities_eq (q : Quantity) :
    (Quantity.validate q).invalidities =
      (if q.n < Quantity.min.n
        then [QuantityInvalidity.Min ⟨Quantity.min, q⟩]
        else []) := by
  simp only [Quantity.validate, into_invalidities, invalidate_if_invalidities,
    valid_invalidities, List.nil_append, decide_eq_true_eq]

theorem contact_invalidities_eq (cd : ContactData) :
    (ContactData.validate cd).invalidities =
      (match cd.email with
        | some e => e.validate.invalidities.map ContactDataInvalidity.Email
        | none => []) ++
      (match cd.phone with
        | some p => p.validate.invalidities.map ContactDataInvalidity.Phone
        | none => []) ++
      (if cd.email.isNone && cd.phone.isNone
        then [ContactDataInvalidity.Incomplete] else []) := by
  cases cd with
  | mk em ph =>
    cases em <;> cases ph <;>
      simp [ContactData.validate, into_invalidities,
        invalidate_if_invalidities, validate_and_map_invalidities,
        valid_invalidities]

theorem customer_invalidities_eq (cu : Customer) :
    (Customer.validate cu).invalidities =
      (if cu.name.isEmpty then [CustomerInvalidity.NameEmpty] else []) ++
      cu.contact_data.validate.invalidities.map
        CustomerInvalidity.ContactData := by
  simp only [Customer.validate, into_invalidities,
    invalidate_if_invalidities, validate_and_map_invalidities,
    valid_invalidities, List.nil_append]

theorem reservation_invalidities_eq (r : Reservation) :
    (Reservation.validate r).invalidities =
      r.customer.validate.invalidities.map ReservationInvalidity.Customer ++
      r.quantity.validate.invalidities.map ReservationInvalidity.Quantity := by
  simp only [Reservation.validate, into_invalidities,
    invalidate_if_invalidities, validate_and_map_invalidities,
    valid_invalidities, List.nil_append]

theorem into_eq_valid_iff_self {I : Type} (c : ValidationContext I) :
    c.into = .valid ↔ c.into.invalidities = [] := by
  rw [into_invalidities]; exact into_eq_valid_iff c

theorem email_valid_iff_nil (e : Email) :
    Email.validate e = .valid ↔ (Email.validate e).invalidities = [] := by
  unfold Email.validate; exact into_eq_valid_iff_self _

theorem phone_valid_iff_nil (p : Phone) :
    Phone.validate p = .valid ↔ (Phone.validate p).invalidities = [] := by
  unfold Phone.validate; exact into_eq_valid_iff_self _

theorem quantity_valid_iff_nil (q : Quantity) :
    Quantity.validate q = .valid ↔ (Quantity.validate q).invalidities = [] := by
  unfold Quantity.validate; exact into_eq_valid_iff_self _

theorem contact_valid_iff_nil (cd : ContactData) :
    ContactData.validate cd = .valid ↔
      (ContactData.validate cd).invalidities = [] := by
  unfold ContactData.validate; exact into_eq_valid_iff_self _

theorem customer_valid_iff_nil (cu : Customer) :
    Customer.validate cu = .valid ↔
      (Customer.validate cu).invalidities = [] := by
  unfold Customer.validate; exact into_eq_valid_iff_self _

theorem reservation_valid_iff_nil (r : Reservation) :
    Reservation.validate r = .valid ↔
      (Reservation.validate r).invalidities = [] := by
  unfold Reservation.validate; exact into_eq_valid_iff_self _

theorem email_length_eq (e : Email) :
    (Email.validate e).invalidities.length = e.numFailing := by
  rw [email_invalidities_eq]
  by_cases h1 : e.s.utf8ByteSize < Email.min_len <;>
    by_cases h2 : e.atCount ≠ 1 <;>
      simp [Email.numFailing, h1, h2]

theorem phone_length_eq (p : Phone) :
    (Phone.validate p).invalidities.length = p.numFailing := by
  rw [phone_invalidities_eq]
  by_cases h : p.nonWsLen < Phone.min_len <;> simp [Phone.numFailing, h]

theorem quantity_length_eq (q : Quantity) :
    (Quantity.validate q).invalidities.length = q.numFailing := by
  rw [quantity_invalidities_eq]
  by_cases h : q.n < Quantity.min.n <;> simp [Quantity.numFailing, h]

theorem contact_length_eq (cd : ContactData) :
    (ContactData.validate cd).invalidities.length = cd.numFailing := by
  rw [contact_invalidities_eq]
  cases cd with
  | mk em ph =>
    cases em <;> cases ph <;>
      simp [ContactData.numFailing, email_length_eq,
        phone_length_eq]

theorem customer_length_eq (cu : Customer) :
    (Customer.validate cu).invalidities.length = cu.numFailing := by
  rw [customer_invalidities_eq]
  by_cases h : cu.name.isEmpty
  · simp [Customer.numFailing, h, contact_length_eq, Nat.add_comm]
  · simp [Customer.numFailing, h, contact_length_eq]

theorem reservation_length_eq (r : Reservation) :
    (Reservation.validate r).invalidities.length = r.numFailing := by
  rw [reservation_invalidities_eq]
  simp [Reservation.numFailing, customer_length_eq,
    quantity_length_eq]

theorem into_total {I : Type} (c : ValidationContext I) :
    c.into = .valid ∨ c.into = .invalid c.into.invalidities := by
  cases c with
  | mk l =>
    cases l with
    | nil => exact Or.inl rfl
    | cons a t => exact Or.inr rfl

theorem into_ne_invalid_nil {I : Type} (c : ValidationContext I) :
    c.into ≠ .invalid [] := by
  cases c with
  | mk l =>
    cases l with
    | nil => simp [ValidationContext.into]
    | cons a t => simp [ValidationContext.into]

theorem email_validate_total (e : Email) :
    Email.validate e = .valid ∨
      Email.validate e = .invalid (Email.validate e).invalidities := by
  unfold Email.validate; exact into_total _

/-! ### Claim theorems -/

/-- C1: for every value of a validatable type in this program, `validate`
returns "valid" iff no `invalidate_if` condition evaluated during the call
was true, and the number of invalidities returned equals the number of
independently-true failing conditions across the whole nested structure —
none dropped, no short-circuiting. -/
theorem claim_exhaustive_complete :
    (∀ e : Email, (Email.validate e = .valid ↔ e.numFailing = 0) ∧
      (Email.validate e).invalidities.length = e.numFailing) ∧
    (∀ p : Phone, (Phone.validate p = .valid ↔ p.numFailing = 0) ∧
      (Phone.validate p).invalidities.length = p.numFailing) ∧
    (∀ cd : ContactData,
      (ContactData.validate cd = .valid ↔ cd.numFailing = 0) ∧
      (ContactData.validate cd).invalidities.length = cd.numFailing) ∧
    (∀ cu : Customer, (Customer.validate cu = .valid ↔ cu.numFailing = 0) ∧
      (Customer.validate cu).invalidities.length = cu.numFailing) ∧
    (∀ q : Quantity, (Quantity.validate q = .valid ↔ q.numFailing = 0) ∧
      (Quantity.validate q).invalidities.length = q.numFailing) ∧
    (∀ r : Reservation,
      (Reservation.validate r = .valid ↔ r.numFailing = 0) ∧
      (Reservation.validate r).invalidities.length = r.numFailing) := by
  refine ⟨fun e => ⟨?_, email_length_eq e⟩,
    fun p => ⟨?_, phone_length_eq p⟩,
    fun cd => ⟨?_, contact_length_eq cd⟩,
    fun cu => ⟨?_, customer_length_eq cu⟩,
    fun q => ⟨?_, quantity_length_eq q⟩,
    fun r => ⟨?_, reservation_length_eq r⟩⟩
  · rw [email_valid_iff_nil, ← List.length_eq_zero,
      email_length_eq]
  · rw [phone_valid_iff_nil, ← List.length_eq_zero,
      phone_length_eq]
  · rw [contact_valid_iff_nil, ← List.length_eq_zero,
      contact_length_eq]
  · rw [customer_valid_iff_nil, ← List.length_eq_zero,
      customer_length_eq]
  · rw [quantity_valid_iff_nil, ← List.length_eq_zero,
      quantity_length_eq]
  · rw [reservation_valid_iff_nil, ← List.length_eq_zero,
      reservation_length_eq]

/-- Witness for C1: the first conjunct applied to the empty email. -/
theorem claim_exhaustive_complete_witness :
    (Email.validate ⟨""⟩ = .valid ↔ Email.numFailing ⟨""⟩ = 0) ∧
    (Email.validate ⟨""⟩).invalidities.length = Email.numFailing ⟨""⟩ :=
  claim_exhaustive_complete.1 ⟨""⟩

/-- C2: finalizing an accumulator with an empty sequence yields the success
variant with no payload and finalizing one with a non-empty sequence yields
the failure variant carrying the full ordered sequence (the conversion is a
total function), so `validate` never returns a failure variant carrying an
empty sequence. -/
theorem claim_finalize_nonempty :
    (∀ (I : Type) (c : ValidationContext I),
      (c.invalidities = [] → c.into = .valid) ∧
      (c.invalidities ≠ [] → c.into = .invalid c.invalidities)) ∧
    (∀ e : Email, Email.validate e ≠ .invalid []) ∧
    (∀ p : Phone, Phone.validate p ≠ .invalid []) ∧
    (∀ cd : ContactData, ContactData.validate cd ≠ .invalid []) ∧
    (∀ cu : Customer, Customer.validate cu ≠ .invalid []) ∧
    (∀ q : Quantity, Quantity.validate q ≠ .invalid []) ∧
    (∀ r : Reservation, Reservation.validate r ≠ .invalid []) := by
  refine ⟨fun I c => ⟨fun h => ?_, into_eq_invalid_of_ne_nil c⟩,
    fun e => ?_, fun p => ?_, fun cd => ?_, fun cu => ?_, fun q => ?_,
    fun r => ?_⟩
  · rw [into_eq_valid_iff]; exact h
  · unfold Email.validate; exact into_ne_invalid_nil _
  · unfold Phone.validate; exact into_ne_invalid_nil _
  · unfold ContactData.validate; exact into_ne_invalid_nil _
  · unfold Customer.validate; exact into_ne_invalid_nil _
  · unfold Quantity.validate; exact into_ne_invalid_nil _
  · unfold Reservation.validate; exact into_ne_invalid_nil _

/-- Witness for C2: finalizing concrete empty and non-empty accumulators,
and a concrete validation that is not an empty failure. -/
theorem claim_finalize_nonempty_witness :
    (⟨[]⟩ : ValidationContext Nat).into = .valid ∧
    (⟨[7]⟩ : ValidationContext Nat).into = .invalid [7] ∧
    Email.validate ⟨""⟩ ≠ .invalid [] :=
  ⟨(claim_finalize_nonempty.1 Nat ⟨[]⟩).1 rfl,
   (claim_finalize_nonempty.1 Nat ⟨[7]⟩).2 (by simp),
   claim_finalize_nonempty.2.1 ⟨""⟩⟩

/-- C3: merging a nested outcome carrying invalidities `[a, b]` into a
parent accumulator via `validate_and_map` with mapping `f` appends exactly
`[f a, f b]` in that order; merging a "valid" nested outcome leaves the
accumulator unchanged. -/
theorem claim_mapping_fidelity :
    ∀ (I J : Type) (c : ValidationContext I) (f : J → I) (a b : J),
      (c.validate_and_map (.invalid [a, b]) f).invalidities =
        c.invalidities ++ [f a, f b] ∧
      c.validate_and_map .valid f = c := by
  intro I J c f a b
  refine ⟨rfl, ?_⟩
  cases c with
  | mk l => simp [ValidationContext.validate_and_map,
      ValidationResult.invalidities]

/-- Witness for C3: the mapping-fidelity equations at concrete inputs. -/
theorem claim_mapping_fidelity_witness :
    ((⟨[0]⟩ : ValidationContext Nat).validate_and_map
        (.invalid [1, 2]) Nat.succ).invalidities = [0] ++ [2, 3] ∧
    (⟨[0]⟩ : ValidationContext Nat).validate_and_map .valid Nat.succ =
      ⟨[0]⟩ :=
  claim_mapping_fidelity Nat Nat ⟨[0]⟩ Nat.succ 1 2

/-- C4: the invalidity sequence of a composite's `validate` is the
concatenation, in call order, of its direct checks and each nested field's
mapped invalidities: in `Customer::validate` a raised `NameEmpty` precedes
all mapped `ContactData` invalidities, and in `Reservation::validate` all
mapped `Customer` invalidities precede all mapped `Quantity`
invalidities. -/
theorem claim_order_concatenation :
    (∀ cu : Customer, (Customer.validate cu).invalidities =
      (if cu.name.isEmpty then [CustomerInvalidity.NameEmpty] else []) ++
      cu.contact_data.validate.invalidities.map
        CustomerInvalidity.ContactData) ∧
    (∀ r : Reservation, (Reservation.validate r).invalidities =
      r.customer.validate.invalidities.map ReservationInvalidity.Customer ++
      r.quantity.validate.invalidities.map ReservationInvalidity.Quantity) :=
  ⟨customer_invalidities_eq, reservation_invalidities_eq⟩

/-- Witness for C4: the concatenation shape at the default customer and
default reservation. -/
theorem claim_order_concatenation_witness :
    (Customer.validate ⟨"", ⟨none, none⟩⟩).invalidities =
      (if ("" : String).isEmpty then [CustomerInvalidity.NameEmpty]
        else []) ++
      (ContactData.validate ⟨none, none⟩).invalidities.map
        CustomerInvalidity.ContactData ∧
    (Reservation.validate Reservation.defaultValue).invalidities =
      (Customer.validate
          Reservation.defaultValue.customer).invalidities.map
        ReservationInvalidity.Customer ++
      (Quantity.validate
          Reservation.defaultValue.quantity).invalidities.map
        ReservationInvalidity.Quantity :=
  ⟨claim_order_concatenation.1 ⟨"", ⟨none, none⟩⟩,
   claim_order_concatenation.2 Reservation.defaultValue⟩

/-- C5: validating the default `Reservation` (empty name, no email, no
phone, quantity 0) reports at least three invalidities, among them
`NameEmpty`, a mapped `ContactData` `Incomplete`, and a `Quantity`
below-minimum invalidity. -/
theorem claim_default_reservation :
    3 ≤ (Reservation.validate Reservation.defaultValue).invalidities.length ∧
    ReservationInvalidity.Customer CustomerInvalidity.NameEmpty ∈
      (Reservation.validate Reservation.defaultValue).invalidities ∧
    ReservationInvalidity.Customer
        (CustomerInvalidity.ContactData ContactDataInvalidity.Incomplete) ∈
      (Reservation.validate Reservation.defaultValue).invalidities ∧
    ReservationInvalidity.Quantity
        (QuantityInvalidity.Min ⟨Quantity.min, ⟨0⟩⟩) ∈
      (Reservation.validate Reservation.defaultValue).invalidities := by
  decide

/-- C6: a `Reservation` with non-empty customer name, at-or-above-minimum
quantity, an email of at least 5 bytes containing exactly one at sign, and
an absent phone validates as "valid"; likewise the `ContactData` aggregate
with such an email and an absent phone. -/
theorem claim_wellformed_valid :
    (∀ (r : Reservation) (e : Email),
      r.customer.name.isEmpty = false →
      Quantity.min.n ≤ r.quantity.n →
      r.customer.contact_data.email = some e →
      Email.min_len ≤ e.s.utf8ByteSize →
      e.atCount = 1 →
      r.customer.contact_data.phone = none →
      Reservation.validate r = .valid) ∧
    (∀ e : Email,
      Email.min_len ≤ e.s.utf8ByteSize →
      e.atCount = 1 →
      ContactData.validate ⟨some e, none⟩ = .valid) := by
  have hcd : ∀ e : Email,
      Email.min_len ≤ e.s.utf8ByteSize → e.atCount = 1 →
      ContactData.validate ⟨some e, none⟩ = .valid := by
    intro e hlen hat
    rw [contact_valid_iff_nil, contact_invalidities_eq]
    simp [email_invalidities_eq, hat, Nat.not_lt.mpr hlen]
  refine ⟨?_, hcd⟩
  intro r e hname hq hemail hlen hat hphone
  rw [reservation_valid_iff_nil, reservation_invalidities_eq,
    customer_invalidities_eq, quantity_invalidities_eq]
  have : r.customer.contact_data = ⟨some e, none⟩ := by
    cases h : r.customer.contact_data with
    | mk em ph =>
      rw [h] at hemail hphone
      simp only at hemail hphone
      rw [hemail, hphone]
  rw [this, hcd e hlen hat]
  simp [hname, Nat.not_lt.mpr hq, ValidationResult.invalidities]

/-- Witness for C6: the well-formed reservation and contact data from the
example's `main`. -/
theorem claim_wellformed_valid_witness :
    Reservation.validate
        ⟨⟨"Mr X", ⟨some ⟨"a@b.c"⟩, none⟩⟩, ⟨4⟩⟩ = .valid ∧
    ContactData.validate ⟨some ⟨"a@b.c"⟩, none⟩ = .valid :=
  ⟨claim_wellformed_valid.1 ⟨⟨"Mr X", ⟨some ⟨"a@b.c"⟩, none⟩⟩, ⟨4⟩⟩
      ⟨"a@b.c"⟩ (by decide) (by decide) rfl (by decide) (by decide) rfl,
   claim_wellformed_valid.2 ⟨"a@b.c"⟩ (by decide) (by decide)⟩

/-- C7: an email string with exactly two at signs and at least the
5-byte minimum length validates to exactly one invalidity, `Format`,
with no `MinLen`. -/
theorem claim_two_ats_format_only :
    ∀ e : Email, e.atCount = 2 → Email.min_len ≤ e.s.utf8ByteSize →
      Email.validate e = .invalid [EmailInvalidity.Format] := by
  intro e hat hlen
  have hinv : (Email.validate e).invalidities = [EmailInvalidity.Format] := by
    rw [email_invalidities_eq]
    simp [hat, Nat.not_lt.mpr hlen]
  rcases email_validate_total e with h | h
  · rw [email_valid_iff_nil, hinv] at h
    exact absurd h (by simp)
  · rw [hinv] at h
    exact h

/-- Witness for C7: the example's `a@b@c` string. -/
theorem claim_two_ats_format_only_witness :
    Email.validate ⟨"a@b@c"⟩ = .invalid [EmailInvalidity.Format] :=
  claim_two_ats_format_only ⟨"a@b@c"⟩ (by decide) (by decide)

/-- C8: `Email::validate` raises `Format` if and only if the number of at
signs in the string differs from exactly one — zero at signs, or three or
more, report `Format` just like the two-at-sign case. -/
theorem claim_format_iff_atcount :
    ∀ e : Email,
      EmailInvalidity.Format ∈ (Email.validate e).invalidities ↔
        e.atCount ≠ 1 := by
  intro e
  rw [email_invalidities_eq]
  by_cases h1 : e.s.utf8ByteSize < Email.min_len <;>
    by_cases h2 : e.atCount ≠ 1 <;>
      simp [h1, h2]

/-- Witness for C8: the empty email (zero at signs) raises `Format`. -/
theorem claim_format_iff_atcount_witness :
    EmailInvalidity.Format ∈ (Email.validate ⟨""⟩).invalidities :=
  (claim_format_iff_atcount ⟨""⟩).mpr (by decide)

/-- C9: the two length checks use different measures — `Email::validate`
compares the UTF-8 byte length against 5, `Phone::validate` counts
non-whitespace characters against 6 — so an email of fewer than 5
characters whose encoding is at least 5 bytes passes the `MinLen` check,
and removing whitespace from a phone string never changes its outcome. -/
theorem claim_length_measures :
    (∀ e : Email,
      ((∃ u, EmailInvalidity.MinLen u ∈ (Email.validate e).invalidities) ↔
        e.s.utf8ByteSize < Email.min_len)) ∧
    (∀ p : Phone,
      ((∃ u, PhoneInvalidity.MinLen u ∈ (Phone.validate p).invalidities) ↔
        p.nonWsLen < Phone.min_len)) ∧
    (∀ e : Email, e.s.toList.length < Email.min_len →
      Email.min_len ≤ e.s.utf8ByteSize →
      ∀ u, EmailInvalidity.MinLen u ∉ (Email.validate e).invalidities) ∧
    (∀ p : Phone,
      Phone.validate
          ⟨String.mk (p.s.toList.filter (fun c => !rustIsWhitespace c))⟩ =
        Phone.validate p) := by
  refine ⟨fun e => ⟨?_, fun h1 => ?_⟩, fun p => ⟨?_, fun h => ?_⟩,
    fun e hchars hbytes u hu => ?_, fun p => ?_⟩
  · rintro ⟨u, hu⟩
    rw [email_invalidities_eq] at hu
    by_cases h1 : e.s.utf8ByteSize < Email.min_len
    · exact h1
    · by_cases h2 : e.atCount ≠ 1 <;> simp [h1, h2] at hu
  · exact ⟨⟨Email.min_len, e.s.utf8ByteSize⟩,
      by rw [email_invalidities_eq]; simp [h1]⟩
  · rintro ⟨u, hu⟩
    rw [phone_invalidities_eq] at hu
    by_cases h : p.nonWsLen < Phone.min_len
    · exact h
    · simp [h] at hu
  · exact ⟨⟨Phone.min_len, p.nonWsLen⟩,
      by rw [phone_invalidities_eq]; simp [h]⟩
  · rw [email_invalidities_eq] at hu
    by_cases h2 : e.atCount ≠ 1 <;>
      simp [Nat.not_lt.mpr hbytes, h2] at hu
  · have hlen : (Phone.mk
        (String.mk (p.s.toList.filter
          (fun c => !rustIsWhitespace c)))).nonWsLen = p.nonWsLen := by
      simp [Phone.nonWsLen, String.toList, List.filter_filter]
    unfold Phone.validate
    rw [hlen]

/-- Witness for C9: the three-character, five-byte email and the example's
whitespaced phone string. -/
theorem claim_length_measures_witness :
    ("ä@é" : String).toList.length < Email.min_len ∧
    Email.min_len ≤ ("ä@é" : String).utf8ByteSize ∧
    EmailInvalidity.MinLen ⟨Email.min_len, ("ä@é" : String).utf8ByteSize⟩ ∉
      (Email.validate ⟨"ä@é"⟩).invalidities ∧
    Phone.validate
        ⟨String.mk ((Phone.mk "0 123").s.toList.filter
          (fun c => !rustIsWhitespace c))⟩ =
      Phone.validate ⟨"0 123"⟩ :=
  ⟨by decide, by decide,
   claim_length_measures.2.2.1 ⟨"ä@é"⟩ (by decide) (by decide) _,
   claim_length_measures.2.2.2 ⟨"0 123"⟩⟩

/-- C10: `ContactData::validate` raises `Incomplete` iff both email and
phone are absent; since neither nested validation runs in that case,
`Incomplete` never co-occurs with any mapped `Email` or `Phone` invalidity
(the outcome is then exactly `[Incomplete]`). -/
theorem claim_incomplete_iff_absent :
    ∀ cd : ContactData,
      (ContactDataInvalidity.Incomplete ∈
          (ContactData.validate cd).invalidities ↔
        cd.email = none ∧ cd.phone = none) ∧
      (ContactDataInvalidity.Incomplete ∈
          (ContactData.validate cd).invalidities →
        (ContactData.validate cd).invalidities =
          [ContactDataInvalidity.Incomplete]) := by
  intro cd
  rw [contact_invalidities_eq]
  cases cd with
  | mk em ph =>
    cases em <;> cases ph <;> simp

/-- Witness for C10: wholly absent contact data raises exactly
`Incomplete`. -/
theorem claim_incomplete_iff_absent_witness :
    ContactDataInvalidity.Incomplete ∈
      (ContactData.validate ⟨none, none⟩).invalidities ∧
    (ContactData.validate ⟨none, none⟩).invalidities =
      [ContactDataInvalidity.Incomplete] :=
  ⟨((claim_incomplete_iff_absent ⟨none, none⟩).1).mpr ⟨rfl, rfl⟩,
   (claim_incomplete_iff_absent ⟨none, none⟩).2
     (((claim_incomplete_iff_absent ⟨none, none⟩).1).mpr ⟨rfl, rfl⟩)⟩

end Semval
